import Mathlib

/-!
# Verification of the saferm guarded deletion engine

A shallow embedding of `src/main.rs` of the `saferm` repository: the mount
boundary detector `is_mountpoint`, the guarded deletion engine `delete`
(embedded here as the fuelled function `deleteFuel`), and the option
construction performed by `main`.

The operating-system facilities the program calls (lstat, canonicalize,
read_dir, remove_file, ...) are modelled by a record of query functions
`FS`; a run returns the list of mutation events it performed (the calls to
`remove_file`; the unmount call in the source is commented out and the
program never invokes any other mutating primitive), together with the
per-path outcome narration and a status recording whether the process
finished normally, panicked (a Rust `unwrap` failure aborts the whole
process), or ran out of the fuel that makes the recursion structural.
-/

namespace Saferm

/-- An operating-system string (one path component).  Rust hands these to the
engine as `OsStr`; the engine only ever observes them through `to_str`, which
yields `some` decoded string exactly when the bytes are valid UTF-8, so the
model records just that observation. -/
structure OsStr where
  toStr : Option String
deriving DecidableEq

/-- A path, as the list of its components below the filesystem root
(`[]` is the root `/`).  The source manipulates `std::path::Path` values;
`starts_with` on those is component-wise prefix, which is `List.isPrefixOf`
here. -/
abbrev Path := List OsStr

/-- A component made from a valid-UTF-8 name. -/
def osName (s : String) : OsStr := ⟨some s⟩

/-- The empty `OsStr`, the default the hidden-file check substitutes via
`unwrap_or("".as_ref())`. -/
def osEmpty : OsStr := ⟨some ""⟩

/-- `Path::parent`: `None` for the root directory, otherwise the path with
its last component dropped. -/
def parent : Path → Option Path
  | [] => none
  | a :: as => some ((a :: as).dropLast)

/-- `Path::file_name`: the final component, except that a path with no
components, or one terminating in `..`, has no file name. -/
def fileName (p : Path) : Option OsStr :=
  match p.getLast? with
  | none => none
  | some n => if n = osName ".." then none else some n

/-- `str::starts_with(".")`: the first character is a dot. -/
def startsWithDot (s : String) : Bool :=
  match s.data with
  | [] => false
  | c :: _ => c == '.'

/-- A component is convertible by `to_str` (its bytes are valid UTF-8). -/
def osValid (o : OsStr) : Bool := o.toStr.isSome

/-- `Path::to_str` succeeds: every component is valid UTF-8. -/
def pathValid (p : Path) : Bool := p.all osValid

/-- The per-path outcome narrated by the engine (one constructor per
`println!` branch of `delete`). -/
inductive Outcome where
  | removedSymlink
  | skippedSymlink
  | skippedAboveRoot
  | skippedHidden
  | unmounted
  | skippedMountPoint
  | skippedNotRecursiveDir
  | deleted
  | deletionError
deriving DecidableEq

/-- How a call of `delete` ended: a normal return with its outcome, a Rust
panic (a failed `unwrap`, which aborts the whole process), or exhaustion of
the fuel that bounds the embedded recursion. -/
inductive Status where
  | ok (o : Outcome)
  | panicked
  | outOfFuel
deriving DecidableEq

/-- A mutation event: one successful call of a mutating filesystem
primitive.  The source only ever calls `std::fs::remove_file`; the
`removeDir` and `unmountFs` capabilities of the specification exist here so
that theorems can state that the program never invokes them. -/
inductive Event where
  | removeFile (p : Path)
  | removeDir (p : Path)
  | unmountFs (p : Path)
deriving DecidableEq

/-- The outcome narration of a run: each processed path with its outcome,
in narration order. -/
abbrev Log := List (Path × Outcome)

/-- The result of running `delete` on one path: final status, the mutation
events performed (in order), and the outcome narration. -/
structure RunOut where
  status : Status
  events : List Event
  log : Log
deriving DecidableEq

/-- The read-only view of the filesystem: the query capabilities the engine
invokes (`is_symlink`, `is_dir`, `canonicalize`, `read_dir`, `lstat`
device numbers, whether `remove_file` would succeed, `try_exists`).
`readDir` returns the children as full paths; a `none` entry is an `Err`
entry of the iterator; `canonicalize`, `readDir`, `lstatDev` and
`tryExists` return `none` on an I/O error. -/
structure FS where
  isSymlink : Path → Bool
  isDir : Path → Bool
  canonicalize : Path → Option Path
  readDir : Path → Option (List (Option Path))
  lstatDev : Path → Option Nat
  removeFileOk : Path → Bool
  tryExists : Path → Option Bool

/-- Modelled from the spec: the effect of the filesystem mutation
capability (`remove_file` / `remove_directory` / `unmount`, which are
external OS primitives, not code of this repository) on the read-only view:
a removed path ceases to exist, its queries fail, and it disappears from
its parent's directory listing.  The unmount call in the source is
commented out, so `unmountFs` events are never produced and their effect is
irrelevant. -/
def FS.applyEvent (fs : FS) (e : Event) : FS :=
  match e with
  | .removeFile p =>
    { isSymlink := fun q => if q = p then false else fs.isSymlink q
      isDir := fun q => if q = p then false else fs.isDir q
      canonicalize := fun q => if q = p then none else fs.canonicalize q
      readDir := fun q =>
        if q = p then none
        else (fs.readDir q).map (List.filter (fun x => !(x == some p)))
      lstatDev := fun q => if q = p then none else fs.lstatDev q
      removeFileOk := fun q => if q = p then false else fs.removeFileOk q
      tryExists := fun q => if q = p then some false else fs.tryExists q }
  | .removeDir p =>
    { isSymlink := fun q => if q = p then false else fs.isSymlink q
      isDir := fun q => if q = p then false else fs.isDir q
      canonicalize := fun q => if q = p then none else fs.canonicalize q
      readDir := fun q =>
        if q = p then none
        else (fs.readDir q).map (List.filter (fun x => !(x == some p)))
      lstatDev := fun q => if q = p then none else fs.lstatDev q
      removeFileOk := fun q => if q = p then false else fs.removeFileOk q
      tryExists := fun q => if q = p then some false else fs.tryExists q }
  | .unmountFs _ => fs

/-- Apply a list of mutation events in order. -/
def FS.applyEvents (fs : FS) (evs : List Event) : FS :=
  evs.foldl FS.applyEvent fs

/-- The configuration record `DeleteOptions` of the source, field for
field. -/
structure DeleteOptions where
  recursive : Bool
  umount : Bool
  dryrun : Bool
  allow_delete_above_start : Bool
  enter_symlinks : Bool
  verbose : Bool
  allow_hidden_files : Bool
  remove_symlinks : Bool
  starting_dir : Path
deriving DecidableEq

/-- `is_mountpoint` of the source: a path with no parent is a mount point;
otherwise `lstat` the path, then its parent (either failure gives `false`),
and compare the device numbers. -/
def is_mountpoint (fs : FS) (path : Path) : Bool :=
  match parent path with
  | none => true
  | some par =>
    match fs.lstatDev path with
    | none => false
    | some dev =>
      match fs.lstatDev par with
      | none => false
      | some dev2 => dev != dev2

/-- The symlink classification at the top of `delete`: if the path is a
symlink, either remove the link itself (`remove_symlinks`; gated by
`dryrun`; a failing `remove_file` is `unwrap`ped, so it panics), or skip it
(`enter_symlinks` unset), or fall through to `next`. -/
def symlinkStep (fs : FS) (options : DeleteOptions) (path : Path)
    (next : RunOut) : RunOut :=
  if fs.isSymlink path then
    if options.remove_symlinks then
      if options.dryrun then
        ⟨.ok .removedSymlink, [], [(path, .removedSymlink)]⟩
      else if fs.removeFileOk path then
        ⟨.ok .removedSymlink, [Event.removeFile path], [(path, .removedSymlink)]⟩
      else
        ⟨.panicked, [], []⟩
    else if !options.enter_symlinks then
      ⟨.ok .skippedSymlink, [], [(path, .skippedSymlink)]⟩
    else next
  else next

/-- The root-boundary check of `delete`: unless `allow_delete_above_start`
is set, canonicalize the path (`unwrap`: a failure panics) and skip the
path when the canonical form is not prefixed by `starting_dir`. -/
def boundaryStep (fs : FS) (options : DeleteOptions) (path : Path)
    (next : RunOut) : RunOut :=
  if !options.allow_delete_above_start then
    match fs.canonicalize path with
    | none => ⟨.panicked, [], []⟩
    | some canon =>
      if options.starting_dir.isPrefixOf canon then next
      else ⟨.ok .skippedAboveRoot, [], [(path, .skippedAboveRoot)]⟩
  else next

/-- The hidden-entry test of `delete`:
`path.file_name().unwrap_or("".as_ref()).to_str().unwrap_or("").starts_with(".")`. -/
def isHiddenName (path : Path) : Bool :=
  startsWithDot ((((fileName path).getD osEmpty).toStr).getD "")

/-- The hidden-entry check of `delete`: unless `allow_hidden_files` is set,
skip a path whose file name starts with a dot. -/
def hiddenStep (options : DeleteOptions) (path : Path)
    (next : RunOut) : RunOut :=
  if !options.allow_hidden_files && isHiddenName path then
    ⟨.ok .skippedHidden, [], [(path, .skippedHidden)]⟩
  else next

/-- The mount-point check of `delete`: on a mount point, either narrate
`unmounted` (the actual unmount call is commented out in the source, so no
mutation event is produced even outside dry-run mode) or skip; otherwise
fall through. -/
def mountStep (fs : FS) (options : DeleteOptions) (path : Path)
    (next : RunOut) : RunOut :=
  if is_mountpoint fs path then
    if options.umount then
      ⟨.ok .unmounted, [], [(path, .unmounted)]⟩
    else
      ⟨.ok .skippedMountPoint, [], [(path, .skippedMountPoint)]⟩
  else next

/-- The status of the child-processing loop of `delete`. -/
inductive ChildrenStatus where
  | done
  | cpanicked
  | coutOfFuel
deriving DecidableEq

/-- The result of the child-processing loop. -/
structure ChildrenOut where
  status : ChildrenStatus
  events : List Event
  log : Log
deriving DecidableEq

/-- The `for entry in read_dir(..)` loop of `delete`: each entry is
`unwrap`ped (an `Err` entry panics), its path converted by
`to_str().unwrap()` (an invalid-UTF-8 name panics), and `delete` is called
on it with its `Result` discarded (`let _ = ...`); a panic inside a child
aborts the whole loop.  The filesystem seen by later children reflects the
mutations performed by earlier ones. -/
def runChildren (step : FS → Path → RunOut) :
    FS → List (Option Path) → ChildrenOut
  | _, [] => ⟨.done, [], []⟩
  | _, none :: _ => ⟨.cpanicked, [], []⟩
  | fs, some c :: rest =>
    if pathValid c then
      let r := step fs c
      match r.status with
      | .ok _ =>
        let r2 := runChildren step (fs.applyEvents r.events) rest
        ⟨r2.status, r.events ++ r2.events, r.log ++ r2.log⟩
      | .panicked => ⟨.cpanicked, r.events, r.log⟩
      | .outOfFuel => ⟨.coutOfFuel, r.events, r.log⟩
    else ⟨.cpanicked, [], []⟩

/-- The terminal deletion at the bottom of `delete`: gated by `dryrun`, it
calls `std::fs::remove_file` (also on directories — the source never calls
`remove_dir`); a failure is printed and the function still returns `Ok`. -/
def terminalStep (fs : FS) (options : DeleteOptions) (path : Path)
    (evs : List Event) (log : Log) : RunOut :=
  if options.dryrun then
    ⟨.ok .deleted, evs, log ++ [(path, .deleted)]⟩
  else if fs.removeFileOk path then
    ⟨.ok .deleted, evs ++ [Event.removeFile path], log ++ [(path, .deleted)]⟩
  else
    ⟨.ok .deletionError, evs, log ++ [(path, .deletionError)]⟩

/-- The directory handling of `delete`: a directory is skipped when
`recursive` is unset; otherwise `read_dir` is `unwrap`ped (a failure
panics), every child is processed by the loop, and then control falls
through to the terminal deletion of the directory itself.  A non-directory
goes straight to the terminal deletion. -/
def dirStep (recurse : FS → Path → RunOut) (fs : FS)
    (options : DeleteOptions) (path : Path) : RunOut :=
  if fs.isDir path then
    if options.recursive then
      match fs.readDir path with
      | none => ⟨.panicked, [], []⟩
      | some entries =>
        let c := runChildren recurse fs entries
        match c.status with
        | .done => terminalStep (fs.applyEvents c.events) options path c.events c.log
        | .cpanicked => ⟨.panicked, c.events, c.log⟩
        | .coutOfFuel => ⟨.outOfFuel, c.events, c.log⟩
    else ⟨.ok .skippedNotRecursiveDir, [], [(path, .skippedNotRecursiveDir)]⟩
  else terminalStep fs options path [] []

/-- `delete` of the source, with a fuel parameter bounding the recursion
depth (the real recursion is bounded by the filesystem depth); the checks
are applied in the source's order: symlink, root boundary, hidden entry,
mount point, directory handling, terminal deletion. -/
def deleteFuel : Nat → FS → DeleteOptions → Path → RunOut
  | 0, _, _, _ => ⟨.outOfFuel, [], []⟩
  | Nat.succ n, fs, options, path =>
    symlinkStep fs options path
      (boundaryStep fs options path
        (hiddenStep options path
          (mountStep fs options path
            (dirStep (fun fs2 c => deleteFuel n fs2 options c) fs options path))))

/-- The command-line flags `main` reads (one per `add_flag`). -/
structure CliInput where
  recursive : Bool
  umount : Bool
  dryrun : Bool
  allow_delete_above_start : Bool
  enter_symlinks : Bool
  verbose : Bool
  allow_hidden_files : Bool
  remove_symlinks : Bool
deriving DecidableEq

/-- The user-supplied path argument: whether it starts with `/`, and its
components. -/
structure RawPath where
  absolute : Bool
  comps : List OsStr
deriving DecidableEq

/-- The path preparation in `main`: the canonicalization is commented out
in the source; an absolute path is used as is, a relative one is appended
to the current working directory. -/
def absolutizePath (input : RawPath) (cwd : Path) : Path :=
  if input.absolute then input.comps else cwd ++ input.comps

/-- The `DeleteOptions` record `main` constructs: the flags, and
`starting_dir` set to the absolutized user path. -/
def mkDeleteOptions (flags : CliInput) (input : RawPath) (cwd : Path) :
    DeleteOptions :=
  { recursive := flags.recursive
    umount := flags.umount
    dryrun := flags.dryrun
    allow_delete_above_start := flags.allow_delete_above_start
    enter_symlinks := flags.enter_symlinks
    verbose := flags.verbose
    allow_hidden_files := flags.allow_hidden_files
    remove_symlinks := flags.remove_symlinks
    starting_dir := absolutizePath input cwd }

/-- How `main` ended: an early return from the startup validation of the
path (`try_exists` erring or reporting absence), or a run of `delete`. -/
inductive MainResult where
  | pathInvalid
  | pathMissing
  | ran (r : RunOut)
deriving DecidableEq

/-- `main` of the source after flag parsing: absolutize the path, build the
options, validate the path with `try_exists` (an error or a missing path
returns before any deletion), then run `delete` on the path. -/
def mainRun (fuel : Nat) (fs : FS) (flags : CliInput) (input : RawPath)
    (cwd : Path) : MainResult :=
  let p := absolutizePath input cwd
  let options := mkDeleteOptions flags input cwd
  match fs.tryExists options.starting_dir with
  | none => .pathInvalid
  | some false => .pathMissing
  | some true => .ran (deleteFuel fuel fs options p)

/-- The symlink classification falls through to the later checks: the path
is not a symlink, or symlinks are entered and not removed. -/
def passesSymlink (fs : FS) (options : DeleteOptions) (path : Path) : Bool :=
  !fs.isSymlink path || (!options.remove_symlinks && options.enter_symlinks)

/-- The root-boundary check falls through: it is disabled, or the path
canonicalizes below `starting_dir`. -/
def passesBoundary (fs : FS) (options : DeleteOptions) (path : Path) : Bool :=
  options.allow_delete_above_start ||
    (match fs.canonicalize path with
     | none => false
     | some canon => options.starting_dir.isPrefixOf canon)

/-- The hidden-entry check falls through: it is disabled, or the file name
does not start with a dot. -/
def passesHidden (options : DeleteOptions) (path : Path) : Bool :=
  options.allow_hidden_files || !isHiddenName path

/-- An event is a `remove_file` call. -/
def eventIsRemoveFile : Event → Bool
  | .removeFile _ => true
  | .removeDir _ => false
  | .unmountFs _ => false

/-! ## Helper lemmas about the decision stages -/

/-- Unfolding of `deleteFuel` at positive fuel. -/
theorem deleteFuel_succ (n : Nat) (fs : FS) (options : DeleteOptions)
    (path : Path) :
    deleteFuel (n + 1) fs options path =
      symlinkStep fs options path
        (boundaryStep fs options path
          (hiddenStep options path
            (mountStep fs options path
              (dirStep (fun fs2 c => deleteFuel n fs2 options c)
                fs options path)))) := rfl

/-- When the symlink classification falls through, `symlinkStep` is the
identity on its continuation. -/
theorem symlinkStep_passes (fs : FS) (options : DeleteOptions) (path : Path)
    (next : RunOut) (h : passesSymlink fs options path = true) :
    symlinkStep fs options path next = next := by
  unfold passesSymlink at h
  unfold symlinkStep
  cases hs : fs.isSymlink path with
  | false => simp
  | true =>
    rw [hs] at h
    simp only [Bool.not_true, Bool.false_or, Bool.and_eq_true,
      Bool.not_eq_true'] at h
    simp [h.1, h.2]

/-- When the root-boundary check falls through, `boundaryStep` is the
identity on its continuation. -/
theorem boundaryStep_passes (fs : FS) (options : DeleteOptions) (path : Path)
    (next : RunOut) (h : passesBoundary fs options path = true) :
    boundaryStep fs options path next = next := by
  unfold passesBoundary at h
  unfold boundaryStep
  cases ha : options.allow_delete_above_start with
  | true => simp
  | false =>
    rw [ha] at h
    simp only [Bool.false_or] at h
    cases hc : fs.canonicalize path with
    | none => rw [hc] at h; exact absurd h (by simp)
    | some canon =>
      rw [hc] at h
      have h2 : List.isPrefixOf options.starting_dir canon = true := h
      simp [hc, h2]

/-- When the hidden-entry check falls through, `hiddenStep` is the identity
on its continuation. -/
theorem hiddenStep_passes (options : DeleteOptions) (path : Path)
    (next : RunOut) (h : passesHidden options path = true) :
    hiddenStep options path next = next := by
  unfold passesHidden at h
  unfold hiddenStep
  cases ha : options.allow_hidden_files with
  | true => simp
  | false =>
    rw [ha] at h
    simp only [Bool.false_or, Bool.not_eq_true'] at h
    simp [h]

/-! ## Dry-run runs perform no mutation -/

/-- In dry-run mode the symlink stage emits no events. -/
theorem symlinkStep_events_nil {fs : FS} {options : DeleteOptions}
    {path : Path} {next : RunOut} (h : options.dryrun = true)
    (hn : next.events = []) :
    (symlinkStep fs options path next).events = [] := by
  unfold symlinkStep
  split
  · split
    · simp [h]
    · split
      · rfl
      · exact hn
  · exact hn

/-- The boundary stage emits no events of its own. -/
theorem boundaryStep_events_nil {fs : FS} {options : DeleteOptions}
    {path : Path} {next : RunOut} (hn : next.events = []) :
    (boundaryStep fs options path next).events = [] := by
  unfold boundaryStep
  split
  · split
    · rfl
    · split
      · exact hn
      · rfl
  · exact hn

/-- The hidden stage emits no events of its own. -/
theorem hiddenStep_events_nil {options : DeleteOptions} {path : Path}
    {next : RunOut} (hn : next.events = []) :
    (hiddenStep options path next).events = [] := by
  unfold hiddenStep
  split
  · rfl
  · exact hn

/-- The mount stage emits no events of its own (the unmount call is
commented out in the source). -/
theorem mountStep_events_nil {fs : FS} {options : DeleteOptions}
    {path : Path} {next : RunOut} (hn : next.events = []) :
    (mountStep fs options path next).events = [] := by
  unfold mountStep
  split
  · split
    · rfl
    · rfl
  · exact hn

/-- In dry-run mode the child loop emits no events. -/
theorem runChildren_events_nil (step : FS → Path → RunOut)
    (hstep : ∀ fs c, (step fs c).events = []) :
    ∀ fs l, (runChildren step fs l).events = [] := by
  intro fs l
  induction l generalizing fs with
  | nil => rfl
  | cons hd tl ih =>
    cases hd with
    | none => rfl
    | some c =>
      rw [runChildren]
      split
      · cases hst : (step fs c).status with
        | ok o => simp only [hst, hstep, ih, List.append_nil]
        | panicked => simp only [hst, hstep]
        | outOfFuel => simp only [hst, hstep]
      · rfl

/-- In dry-run mode the directory stage emits no events. -/
theorem dirStep_events_nil {recurse : FS → Path → RunOut} {fs : FS}
    {options : DeleteOptions} {path : Path} (h : options.dryrun = true)
    (hrec : ∀ fs2 c, (recurse fs2 c).events = []) :
    (dirStep recurse fs options path).events = [] := by
  unfold dirStep
  split
  · split
    · cases hrd : fs.readDir path with
      | none => simp [hrd]
      | some entries =>
        have hc := runChildren_events_nil recurse hrec fs entries
        cases hcs : (runChildren recurse fs entries).status with
        | done => simp [hrd, hcs, hc, terminalStep, h]
        | cpanicked => simp [hrd, hcs, hc]
        | coutOfFuel => simp [hrd, hcs, hc]
    · rfl
  · simp [terminalStep, h]

/-- In dry-run mode the engine performs no filesystem mutation at all:
a run emits no events, at any fuel, on any filesystem and any path. -/
theorem deleteFuel_dryrun_events (n : Nat) :
    ∀ (fs : FS) (options : DeleteOptions) (path : Path),
      options.dryrun = true → (deleteFuel n fs options path).events = [] := by
  induction n with
  | zero => intro fs options path _; rfl
  | succ n ih =>
    intro fs options path h
    rw [deleteFuel_succ]
    exact symlinkStep_events_nil h
      (boundaryStep_events_nil
        (hiddenStep_events_nil
          (mountStep_events_nil
            (dirStep_events_nil h (fun fs2 c => ih fs2 options c h)))))

/-! ## Every event a run ever emits is a `remove_file` call -/

/-- The symlink stage only ever adds a `remove_file` event. -/
theorem symlinkStep_events_all {fs : FS} {options : DeleteOptions}
    {path : Path} {next : RunOut}
    (hn : next.events.all eventIsRemoveFile = true) :
    ((symlinkStep fs options path next).events.all eventIsRemoveFile)
      = true := by
  unfold symlinkStep
  split
  · split
    · split
      · rfl
      · split
        · rfl
        · rfl
    · split
      · rfl
      · exact hn
  · exact hn

/-- The boundary stage adds no events. -/
theorem boundaryStep_events_all {fs : FS} {options : DeleteOptions}
    {path : Path} {next : RunOut}
    (hn : next.events.all eventIsRemoveFile = true) :
    ((boundaryStep fs options path next).events.all eventIsRemoveFile)
      = true := by
  unfold boundaryStep
  split
  · split
    · rfl
    · split
      · exact hn
      · rfl
  · exact hn

/-- The hidden stage adds no events. -/
theorem hiddenStep_events_all {options : DeleteOptions} {path : Path}
    {next : RunOut} (hn : next.events.all eventIsRemoveFile = true) :
    ((hiddenStep options path next).events.all eventIsRemoveFile)
      = true := by
  unfold hiddenStep
  split
  · rfl
  · exact hn

/-- The mount stage adds no events. -/
theorem mountStep_events_all {fs : FS} {options : DeleteOptions}
    {path : Path} {next : RunOut}
    (hn : next.events.all eventIsRemoveFile = true) :
    ((mountStep fs options path next).events.all eventIsRemoveFile)
      = true := by
  unfold mountStep
  split
  · split
    · rfl
    · rfl
  · exact hn

/-- The child loop only emits events its steps emit. -/
theorem runChildren_events_all (step : FS → Path → RunOut)
    (hstep : ∀ fs c, (step fs c).events.all eventIsRemoveFile = true) :
    ∀ fs l, ((runChildren step fs l).events.all eventIsRemoveFile)
      = true := by
  intro fs l
  induction l generalizing fs with
  | nil => rfl
  | cons hd tl ih =>
    cases hd with
    | none => rfl
    | some c =>
      rw [runChildren]
      split
      · cases hst : (step fs c).status with
        | ok o => simp only [hst, List.all_append, hstep, ih,
            Bool.and_self]
        | panicked => simp only [hst, hstep]
        | outOfFuel => simp only [hst, hstep]
      · rfl

/-- The terminal deletion only ever adds a `remove_file` event. -/
theorem terminalStep_events_all {fs : FS} {options : DeleteOptions}
    {path : Path} {evs : List Event} {log : Log}
    (he : evs.all eventIsRemoveFile = true) :
    ((terminalStep fs options path evs log).events.all eventIsRemoveFile)
      = true := by
  unfold terminalStep
  split
  · exact he
  · split
    · simp [List.all_append, he, eventIsRemoveFile]
    · exact he

/-- The directory stage only emits events its children and the terminal
deletion emit. -/
theorem dirStep_events_all {recurse : FS → Path → RunOut} {fs : FS}
    {options : DeleteOptions} {path : Path}
    (hrec : ∀ fs2 c, (recurse fs2 c).events.all eventIsRemoveFile = true) :
    ((dirStep recurse fs options path).events.all eventIsRemoveFile)
      = true := by
  unfold dirStep
  split
  · split
    · cases hrd : fs.readDir path with
      | none => simp [hrd]
      | some entries =>
        have hc := runChildren_events_all recurse hrec fs entries
        cases hcs : (runChildren recurse fs entries).status with
        | done => simp only [hrd, hcs]; exact terminalStep_events_all hc
        | cpanicked => simp only [hrd, hcs]; exact hc
        | coutOfFuel => simp only [hrd, hcs]; exact hc
    · rfl
  · exact terminalStep_events_all rfl

/-- Every mutation event any run of the engine ever performs is a
`remove_file` call: the engine never invokes the `remove_directory` or
`unmount` capabilities. -/
theorem deleteFuel_events_all (n : Nat) :
    ∀ (fs : FS) (options : DeleteOptions) (path : Path),
      ((deleteFuel n fs options path).events.all eventIsRemoveFile)
        = true := by
  induction n with
  | zero => intro fs options path; rfl
  | succ n ih =>
    intro fs options path
    rw [deleteFuel_succ]
    exact symlinkStep_events_all
      (boundaryStep_events_all
        (hiddenStep_events_all
          (mountStep_events_all
            (dirStep_events_all (fun fs2 c => ih fs2 options c)))))

/-- Reaching the directory stage: when the symlink, boundary and hidden
checks fall through and the path is not a mount point, `delete` is its
directory handling. -/
theorem deleteFuel_reaches_dir (n : Nat) (fs : FS)
    (options : DeleteOptions) (path : Path)
    (h1 : passesSymlink fs options path = true)
    (h2 : passesBoundary fs options path = true)
    (h3 : passesHidden options path = true)
    (h4 : is_mountpoint fs path = false) :
    deleteFuel (n + 1) fs options path =
      dirStep (fun fs2 c => deleteFuel n fs2 options c) fs options path := by
  rw [deleteFuel_succ, symlinkStep_passes _ _ _ _ h1,
    boundaryStep_passes _ _ _ _ h2, hiddenStep_passes _ _ _ h3]
  unfold mountStep
  simp [h4]

/-! ## Concrete fixtures -/

/-- A simple filesystem: no symlinks, no directories, every path is its own
canonical form, one device everywhere, removals succeed. -/
def baseFS : FS :=
  { isSymlink := fun _ => false
    isDir := fun _ => false
    canonicalize := fun p => some p
    readDir := fun _ => none
    lstatDev := fun _ => some 0
    removeFileOk := fun _ => true
    tryExists := fun _ => some true }

/-- All options off, starting from the filesystem root. -/
def baseOptions : DeleteOptions :=
  { recursive := false, umount := false, dryrun := false
    allow_delete_above_start := false, enter_symlinks := false
    verbose := false, allow_hidden_files := false, remove_symlinks := false
    starting_dir := [] }

/-- All command-line flags off. -/
def baseFlags : CliInput :=
  { recursive := false, umount := false, dryrun := false
    allow_delete_above_start := false, enter_symlinks := false
    verbose := false, allow_hidden_files := false, remove_symlinks := false }

/-! ## Claim C1 -/

/-- C1 (amended): for every path that reaches the root-boundary check
(it is not a symlink, or symlinks are entered without `remove_symlinks`),
with `allow_delete_above_start` false and canonicalization succeeding, if
the canonical form is not prefixed by `starting_dir` then the outcome is
`SkippedAboveRoot` and no filesystem mutation occurs for that path,
regardless of the remaining flags. -/
theorem aboveRoot_skip_when_check_reached (n : Nat) (fs : FS)
    (options : DeleteOptions) (path : Path) (canon : Path)
    (hsym : passesSymlink fs options path = true)
    (hallow : options.allow_delete_above_start = false)
    (hcanon : fs.canonicalize path = some canon)
    (hpre : options.starting_dir.isPrefixOf canon = false) :
    deleteFuel (n + 1) fs options path =
      ⟨.ok .skippedAboveRoot, [], [(path, .skippedAboveRoot)]⟩ := by
  rw [deleteFuel_succ, symlinkStep_passes _ _ _ _ hsym]
  unfold boundaryStep
  simp [hallow, hcanon, hpre]

/-- A filesystem where every path canonicalizes to the out-of-root path
`/e`. -/
def fsW1 : FS := { baseFS with canonicalize := fun _ => some [osName "e"] }

/-- Options rooted at `/t`. -/
def optsW1 : DeleteOptions := { baseOptions with starting_dir := [osName "t"] }

/-- Witness for C1: a concrete non-symlink path canonicalizing outside the
starting directory is skipped with no mutation. -/
theorem aboveRoot_skip_witness :
    passesSymlink fsW1 optsW1 [osName "p"] = true ∧
    optsW1.allow_delete_above_start = false ∧
    fsW1.canonicalize [osName "p"] = some [osName "e"] ∧
    List.isPrefixOf optsW1.starting_dir [osName "e"] = false ∧
    deleteFuel (0 + 1) fsW1 optsW1 [osName "p"] =
      ⟨.ok .skippedAboveRoot, [], [([osName "p"], .skippedAboveRoot)]⟩ :=
  ⟨by decide, by decide, by decide, by decide,
    aboveRoot_skip_when_check_reached 0 fsW1 optsW1 [osName "p"] [osName "e"]
      (by decide) (by decide) (by decide) (by decide)⟩

/-- A filesystem where `/s` is a symlink and every path canonicalizes to
`/e`. -/
def fsC1 : FS :=
  { baseFS with
    isSymlink := fun q => q = [osName "s"]
    canonicalize := fun _ => some [osName "e"] }

/-- Options rooted at `/t` with `remove_symlinks` set. -/
def optsC1 : DeleteOptions :=
  { baseOptions with remove_symlinks := true
                     starting_dir := [osName "t"] }

/-- Counterexample to C1 as stated: a symlink whose canonical form lies
outside `starting_dir`, processed with `allow_delete_above_start` false but
`remove_symlinks` true, is removed (a mutation event occurs) and its
outcome is not `SkippedAboveRoot` — the symlink branch precedes the
root-boundary check. -/
theorem aboveRoot_symlink_removed_cex :
    optsC1.allow_delete_above_start = false ∧
    optsC1.dryrun = false ∧
    fsC1.canonicalize [osName "s"] = some [osName "e"] ∧
    List.isPrefixOf optsC1.starting_dir [osName "e"] = false ∧
    deleteFuel 1 fsC1 optsC1 [osName "s"] =
      ⟨.ok .removedSymlink, [Event.removeFile [osName "s"]],
        [([osName "s"], .removedSymlink)]⟩ :=
  ⟨rfl, rfl, rfl, by decide, by decide⟩

/-! ## Claim C2 -/

/-- C2: with `dry_run` true no filesystem mutation is performed on any
path (the run emits no mutation events, so the filesystem state after the
run equals the state before), and running the same invocation again from
the resulting state produces the identical result, outcome narration
included. -/
theorem dryrun_no_mutation_idempotent (n : Nat) (fs : FS)
    (options : DeleteOptions) (path : Path) (h : options.dryrun = true) :
    (deleteFuel n fs options path).events = [] ∧
    fs.applyEvents (deleteFuel n fs options path).events = fs ∧
    deleteFuel n (fs.applyEvents (deleteFuel n fs options path).events)
        options path = deleteFuel n fs options path := by
  have he := deleteFuel_dryrun_events n fs options path h
  refine ⟨he, ?_, ?_⟩ <;> rw [he] <;> rfl

/-- Options for a recursive dry run. -/
def optsW2 : DeleteOptions :=
  { baseOptions with dryrun := true, recursive := true }

/-- Witness for C2 at a concrete dry run. -/
theorem dryrun_no_mutation_witness :
    optsW2.dryrun = true ∧
    ((deleteFuel 2 baseFS optsW2 [osName "d"]).events = [] ∧
     baseFS.applyEvents (deleteFuel 2 baseFS optsW2 [osName "d"]).events
       = baseFS ∧
     deleteFuel 2
         (baseFS.applyEvents (deleteFuel 2 baseFS optsW2 [osName "d"]).events)
         optsW2 [osName "d"]
       = deleteFuel 2 baseFS optsW2 [osName "d"]) :=
  ⟨rfl, dryrun_no_mutation_idempotent 2 baseFS optsW2 [osName "d"] rfl⟩

/-! ## Claim C3 -/

/-- C3 (amended): for every path that reaches the root-boundary check with
`allow_delete_above_start` false, a canonicalization failure makes the
engine panic (the `unwrap` aborts the whole process); the failure is not
treated as a per-path skip and the run does not continue. -/
theorem canonicalize_failure_panics (n : Nat) (fs : FS)
    (options : DeleteOptions) (path : Path)
    (hsym : passesSymlink fs options path = true)
    (hallow : options.allow_delete_above_start = false)
    (hcanon : fs.canonicalize path = none) :
    deleteFuel (n + 1) fs options path = ⟨.panicked, [], []⟩ := by
  rw [deleteFuel_succ, symlinkStep_passes _ _ _ _ hsym]
  unfold boundaryStep
  simp [hallow, hcanon]

/-- A filesystem where canonicalization always fails. -/
def fsC3 : FS := { baseFS with canonicalize := fun _ => none }

/-- Witness for C3 (amended) at a concrete input. -/
theorem canonicalize_failure_panics_witness :
    passesSymlink fsC3 baseOptions [osName "q"] = true ∧
    deleteFuel (0 + 1) fsC3 baseOptions [osName "q"] = ⟨.panicked, [], []⟩ :=
  ⟨by decide,
    canonicalize_failure_panics 0 fsC3 baseOptions [osName "q"]
      (by decide) rfl rfl⟩

/-- Counterexample to C3 as stated: on a concrete path whose
canonicalization fails during the root-boundary check, the engine panics
(aborting the process) instead of skipping the path and continuing. -/
theorem canonicalize_failure_cex :
    fsC3.canonicalize [osName "p"] = none ∧
    baseOptions.allow_delete_above_start = false ∧
    deleteFuel 1 fsC3 baseOptions [osName "p"] = ⟨.panicked, [], []⟩ :=
  ⟨rfl, rfl, by decide⟩

/-! ## Claim C4 -/

/-- C4 (amended): policy skips and terminal removal failures never abort
the traversal (a failing terminal `remove_file` yields a per-path
`DeletionError` and a normal return), and a startup validation failure
stops the run before any deletion; but a directory-enumeration failure —
like a canonicalization or symlink-removal failure — panics and aborts the
entire process, so mid-traversal failures are not all contained. -/
theorem failure_containment_amended :
    (∀ (n : Nat) (fs : FS) (options : DeleteOptions) (path : Path),
      passesSymlink fs options path = true →
      passesBoundary fs options path = true →
      passesHidden options path = true →
      is_mountpoint fs path = false →
      fs.isDir path = false →
      options.dryrun = false →
      fs.removeFileOk path = false →
      deleteFuel (n + 1) fs options path =
        ⟨.ok .deletionError, [], [(path, .deletionError)]⟩) ∧
    (∀ (n : Nat) (fs : FS) (options : DeleteOptions) (path : Path),
      passesSymlink fs options path = true →
      passesBoundary fs options path = true →
      passesHidden options path = true →
      is_mountpoint fs path = false →
      fs.isDir path = true →
      options.recursive = true →
      fs.readDir path = none →
      deleteFuel (n + 1) fs options path = ⟨.panicked, [], []⟩) ∧
    (∀ (fuel : Nat) (fs : FS) (flags : CliInput) (input : RawPath)
        (cwd : Path),
      fs.tryExists (absolutizePath input cwd) = none →
      mainRun fuel fs flags input cwd = .pathInvalid) ∧
    (∀ (fuel : Nat) (fs : FS) (flags : CliInput) (input : RawPath)
        (cwd : Path),
      fs.tryExists (absolutizePath input cwd) = some false →
      mainRun fuel fs flags input cwd = .pathMissing) := by
  refine ⟨?_, ?_, ?_, ?_⟩
  · intro n fs options path h1 h2 h3 h4 hd hdry hrm
    rw [deleteFuel_reaches_dir n fs options path h1 h2 h3 h4]
    unfold dirStep terminalStep
    simp [hd, hdry, hrm]
  · intro n fs options path h1 h2 h3 h4 hd hr hrd
    rw [deleteFuel_reaches_dir n fs options path h1 h2 h3 h4]
    unfold dirStep
    simp [hd, hr, hrd]
  · intro fuel fs flags input cwd h
    unfold mainRun
    simp [mkDeleteOptions, h]
  · intro fuel fs flags input cwd h
    unfold mainRun
    simp [mkDeleteOptions, h]

/-- A filesystem where removals fail. -/
def fsW4a : FS := { baseFS with removeFileOk := fun _ => false }

/-- A filesystem where every path is a directory whose enumeration
fails. -/
def fsW4b : FS := { baseFS with isDir := fun _ => true }

/-- A filesystem where the startup existence query errors. -/
def fsW4c : FS := { baseFS with tryExists := fun _ => none }

/-- A filesystem where the startup existence query reports absence. -/
def fsW4d : FS := { baseFS with tryExists := fun _ => some false }

/-- Options with `recursive` set. -/
def optsW4 : DeleteOptions := { baseOptions with recursive := true }

/-- The absolute user path `/t`. -/
def rawW4 : RawPath := ⟨true, [osName "t"]⟩

/-- Witness for C4 (amended): all four parts at concrete inputs. -/
theorem failure_containment_witness :
    deleteFuel (0 + 1) fsW4a baseOptions [osName "f"] =
      ⟨.ok .deletionError, [], [([osName "f"], .deletionError)]⟩ ∧
    deleteFuel (0 + 1) fsW4b optsW4 [osName "f"] = ⟨.panicked, [], []⟩ ∧
    mainRun 1 fsW4c baseFlags rawW4 [] = .pathInvalid ∧
    mainRun 1 fsW4d baseFlags rawW4 [] = .pathMissing :=
  ⟨failure_containment_amended.1 0 fsW4a baseOptions [osName "f"]
      (by decide) (by decide) (by decide) (by decide) rfl rfl rfl,
   failure_containment_amended.2.1 0 fsW4b optsW4 [osName "f"]
      (by decide) (by decide) (by decide) (by decide) rfl rfl rfl,
   failure_containment_amended.2.2.1 1 fsW4c baseFlags rawW4 [] rfl,
   failure_containment_amended.2.2.2 1 fsW4d baseFlags rawW4 [] rfl⟩

/-- A tree `/p` containing the directory `/p/c` whose enumeration
fails. -/
def fsC4 : FS :=
  { baseFS with
    isDir := fun q => q = [osName "p"] || q = [osName "p", osName "c"]
    readDir := fun q =>
      if q = [osName "p"] then some [some [osName "p", osName "c"]]
      else none }

/-- Options for a recursive run rooted at `/p`. -/
def optsC4 : DeleteOptions :=
  { baseOptions with recursive := true, starting_dir := [osName "p"] }

/-- Counterexample to C4 as stated: a directory-enumeration failure on the
child `/p/c`, encountered mid-traversal while walking `/p`, panics and
terminates the entire run — it does not merely skip that child. -/
theorem enumeration_failure_aborts_cex :
    fsC4.readDir [osName "p", osName "c"] = none ∧
    deleteFuel 3 fsC4 optsC4 [osName "p"] = ⟨.panicked, [], []⟩ :=
  ⟨rfl, by decide⟩

/-! ## Claim C5 -/

/-- The directory `/d` containing the single file `/d/f`; `remove_file`
succeeds on files but fails on the directory itself, as `unlink` does on
every operating system this program targets. -/
def fsC5 : FS :=
  { baseFS with
    isDir := fun q => q = [osName "d"]
    readDir := fun q =>
      if q = [osName "d"] then some [some [osName "d", osName "f"]]
      else none
    removeFileOk := fun q => !(q = [osName "d"] : Bool) }

/-- The empty directory `/d`, on which `remove_file` fails. -/
def fsC5e : FS :=
  { fsC5 with readDir := fun q => if q = [osName "d"] then some [] else none }

/-- Options for a recursive run rooted at `/d`. -/
def optsC5 : DeleteOptions :=
  { baseOptions with recursive := true, starting_dir := [osName "d"] }

/-- C5 (code bug): children are processed first and the directory's own
removal is attempted only afterwards, but the attempt uses
`std::fs::remove_file`, never the directory-removal capability: every
mutation event any run ever emits is a `remove_file` call, and on a
now-empty directory the attempt therefore fails with a `DeletionError`
(second conjunct); the third conjunct shows the children-first order and
the failing `remove_file` on the emptied directory. -/
theorem directory_removed_via_remove_file :
    (∀ (n : Nat) (fs : FS) (options : DeleteOptions) (path : Path),
      ((deleteFuel n fs options path).events.all eventIsRemoveFile)
        = true) ∧
    deleteFuel 2 fsC5e optsC5 [osName "d"] =
      ⟨.ok .deletionError, [], [([osName "d"], .deletionError)]⟩ ∧
    deleteFuel 2 fsC5 optsC5 [osName "d"] =
      ⟨.ok .deletionError, [Event.removeFile [osName "d", osName "f"]],
        [([osName "d", osName "f"], .deleted),
         ([osName "d"], .deletionError)]⟩ :=
  ⟨deleteFuel_events_all, by decide, by decide⟩

/-! ## Claim C6 -/

/-- C6: for every symlink path, if `remove_symlinks` is true the symlink
branch fires before every other check and flag: the only mutation a run
can perform is removing the link itself (its target is never touched),
processing of that path stops (the narration has at most the one entry,
so there is no recursion), the link is removed when not in dry-run mode,
and in dry-run mode the action is reported without mutation; if
`remove_symlinks` is false and `enter_symlinks` is false, the outcome is
`SkippedSymlink` with no further checks, no recursion and no mutation. -/
theorem symlink_branch_precedence (n : Nat) (fs : FS)
    (options : DeleteOptions) (path : Path)
    (hsl : fs.isSymlink path = true) :
    (options.remove_symlinks = true →
      (∀ e, e ∈ (deleteFuel (n + 1) fs options path).events →
        e = Event.removeFile path) ∧
      (deleteFuel (n + 1) fs options path).log.length ≤ 1 ∧
      (options.dryrun = false → fs.removeFileOk path = true →
        deleteFuel (n + 1) fs options path =
          ⟨.ok .removedSymlink, [Event.removeFile path],
            [(path, .removedSymlink)]⟩) ∧
      (options.dryrun = true →
        deleteFuel (n + 1) fs options path =
          ⟨.ok .removedSymlink, [], [(path, .removedSymlink)]⟩)) ∧
    (options.remove_symlinks = false → options.enter_symlinks = false →
      deleteFuel (n + 1) fs options path =
        ⟨.ok .skippedSymlink, [], [(path, .skippedSymlink)]⟩) := by
  constructor
  · intro hrm
    have hstep : deleteFuel (n + 1) fs options path =
        (if options.dryrun then
          ⟨.ok .removedSymlink, [], [(path, .removedSymlink)]⟩
        else if fs.removeFileOk path then
          ⟨.ok .removedSymlink, [Event.removeFile path],
            [(path, .removedSymlink)]⟩
        else ⟨.panicked, [], []⟩ : RunOut) := by
      rw [deleteFuel_succ]; unfold symlinkStep; simp [hsl, hrm]
    refine ⟨?_, ?_, ?_, ?_⟩
    · intro e he
      rw [hstep] at he
      split at he
      · simp at he
      · split at he
        · simpa using he
        · simp at he
    · rw [hstep]
      split
      · simp
      · split <;> simp
    · intro hd hok; rw [hstep]; simp [hd, hok]
    · intro hd; rw [hstep]; simp [hd]
  · intro hrm hent
    rw [deleteFuel_succ]; unfold symlinkStep; simp [hsl, hrm, hent]

/-- A filesystem where every path is a symlink. -/
def fsW6 : FS := { baseFS with isSymlink := fun _ => true }

/-- Options with `remove_symlinks` set. -/
def optsW6 : DeleteOptions := { baseOptions with remove_symlinks := true }

/-- Witness for C6: a concrete symlink is removed (link only) under
`remove_symlinks`. -/
theorem symlink_branch_witness :
    fsW6.isSymlink [osName "s"] = true ∧
    deleteFuel (0 + 1) fsW6 optsW6 [osName "s"] =
      ⟨.ok .removedSymlink, [Event.removeFile [osName "s"]],
        [([osName "s"], .removedSymlink)]⟩ :=
  ⟨rfl,
    ((symlink_branch_precedence 0 fsW6 optsW6 [osName "s"] rfl).1
      rfl).2.2.1 rfl rfl⟩

/-! ## Claim C7 -/

/-- C7: `is_mountpoint` returns true unconditionally when the path has no
parent; when it has one, it returns false if the link-aware stat of the
path or of its parent fails, and otherwise returns true iff their device
identifiers differ.  It only queries the filesystem (its type is
`FS → Path → Bool`) and performs no mutation. -/
theorem is_mountpoint_contract (fs : FS) (p : Path) :
    (parent p = none → is_mountpoint fs p = true) ∧
    (∀ par, parent p = some par →
      (fs.lstatDev p = none → is_mountpoint fs p = false) ∧
      (∀ d, fs.lstatDev p = some d → fs.lstatDev par = none →
        is_mountpoint fs p = false) ∧
      (∀ d d2, fs.lstatDev p = some d → fs.lstatDev par = some d2 →
        (is_mountpoint fs p = true ↔ d ≠ d2))) := by
  refine ⟨?_, ?_⟩
  · intro h; simp [is_mountpoint, h]
  · intro par hp
    refine ⟨?_, ?_, ?_⟩
    · intro h; simp [is_mountpoint, hp, h]
    · intro d hd hpar; simp [is_mountpoint, hp, hd, hpar]
    · intro d d2 hd hd2; simp [is_mountpoint, hp, hd, hd2, bne_iff_ne]

/-- A filesystem where the root has device 1 and everything else
device 2. -/
def fsW7 : FS :=
  { baseFS with lstatDev := fun q => if q = [] then some 1 else some 2 }

/-- Witness for C7: a concrete path whose device differs from its
parent's is a mount point. -/
theorem is_mountpoint_contract_witness :
    is_mountpoint fsW7 [osName "m"] = true :=
  (((is_mountpoint_contract fsW7 [osName "m"]).2 [] rfl).2.2 2 1
    rfl rfl).mpr (by decide)

/-! ## Claim C8 -/

/-- C8 (amended): for every path that reaches the mount-point check and is
a mount point, the outcome is terminal with a single narration entry and
no mutation events, and the path's contents are never enumerated: with
`umount` false the outcome is `SkippedMountPoint`; with `umount` true the
outcome is `Unmounted`, but the unmount capability is not actually invoked
(the call is commented out in the source), and no deletion is attempted on
the mount point itself. -/
theorem mountpoint_terminal (n : Nat) (fs : FS) (options : DeleteOptions)
    (path : Path)
    (h1 : passesSymlink fs options path = true)
    (h2 : passesBoundary fs options path = true)
    (h3 : passesHidden options path = true)
    (hm : is_mountpoint fs path = true) :
    deleteFuel (n + 1) fs options path =
      (if options.umount then
        ⟨.ok .unmounted, [], [(path, .unmounted)]⟩
      else
        ⟨.ok .skippedMountPoint, [], [(path, .skippedMountPoint)]⟩
        : RunOut) := by
  rw [deleteFuel_succ, symlinkStep_passes _ _ _ _ h1,
    boundaryStep_passes _ _ _ _ h2, hiddenStep_passes _ _ _ h3]
  unfold mountStep
  rw [hm]
  simp

/-- A filesystem where `/m` sits on device 5 and everything else on
device 0. -/
def fsC8 : FS :=
  { baseFS with
    lstatDev := fun q => if q = [osName "m"] then some 5 else some 0 }

/-- Options with `umount` set (and `dryrun` off). -/
def optsC8 : DeleteOptions := { baseOptions with umount := true }

/-- Witness for C8 (amended): the mount point `/m` is skipped with a
single narration entry and no events when `umount` is off. -/
theorem mountpoint_terminal_witness :
    is_mountpoint fsC8 [osName "m"] = true ∧
    deleteFuel (0 + 1) fsC8 baseOptions [osName "m"] =
      ⟨.ok .skippedMountPoint, [], [([osName "m"], .skippedMountPoint)]⟩ := by
  refine ⟨by decide, ?_⟩
  rw [mountpoint_terminal 0 fsC8 baseOptions [osName "m"]
    (by decide) (by decide) (by decide) (by decide)]
  decide

/-- Counterexample to C8 as stated: at the mount point `/m` with `umount`
true and `dryrun` false the outcome is `Unmounted`, yet the run performs
no mutation event at all — the unmount capability is not performed. -/
theorem unmount_not_performed_cex :
    optsC8.umount = true ∧
    optsC8.dryrun = false ∧
    is_mountpoint fsC8 [osName "m"] = true ∧
    deleteFuel 1 fsC8 optsC8 [osName "m"] =
      ⟨.ok .unmounted, [], [([osName "m"], .unmounted)]⟩ :=
  ⟨rfl, rfl, by decide, by decide⟩

/-! ## Claim C9 -/

/-- C9 (amended): `starting_dir` is set exactly once at startup, to the
absolutized — not canonicalized — form of the user-supplied target path
(the working directory is prepended when the path is relative; the
canonicalization in `main` is commented out), and the root-boundary check
of every call compares the canonical form of its path against exactly this
fixed value. -/
theorem starting_dir_fixed_absolute (flags : CliInput) (input : RawPath)
    (cwd : Path) :
    (mkDeleteOptions flags input cwd).starting_dir =
      absolutizePath input cwd ∧
    (∀ (fs : FS) (path : Path) (next : RunOut) (canon : Path),
      flags.allow_delete_above_start = false →
      fs.canonicalize path = some canon →
      boundaryStep fs (mkDeleteOptions flags input cwd) path next =
        (if List.isPrefixOf (absolutizePath input cwd) canon then next
         else ⟨.ok .skippedAboveRoot, [], [(path, .skippedAboveRoot)]⟩
         : RunOut)) := by
  refine ⟨rfl, ?_⟩
  intro fs path next canon ha hc
  unfold boundaryStep
  simp [mkDeleteOptions, ha, hc]

/-- The relative user path `a`. -/
def inputW9 : RawPath := ⟨false, [osName "a"]⟩

/-- Witness for C9 (amended): from working directory `/w` and relative
path `a`, `starting_dir` is `/w/a`, and the boundary check against it
passes a path canonicalizing to `/w/a` itself. -/
theorem starting_dir_fixed_witness :
    (mkDeleteOptions baseFlags inputW9 [osName "w"]).starting_dir =
      [osName "w", osName "a"] ∧
    boundaryStep baseFS (mkDeleteOptions baseFlags inputW9 [osName "w"])
        [osName "w", osName "a"] ⟨.ok .deleted, [], []⟩ =
      ⟨.ok .deleted, [], []⟩ := by
  refine ⟨((starting_dir_fixed_absolute baseFlags inputW9 [osName "w"]).1).trans
    (by decide), ?_⟩
  rw [(starting_dir_fixed_absolute baseFlags inputW9 [osName "w"]).2 baseFS
    [osName "w", osName "a"] ⟨.ok .deleted, [], []⟩ [osName "w", osName "a"]
    rfl rfl]
  decide

/-- A filesystem where canonicalization resolves every path to `/x`
(for instance because `/w/a` is reached through a symlink). -/
def fsC9 : FS := { baseFS with canonicalize := fun _ => some [osName "x"] }

/-- Counterexample to C9 as stated: with working directory `/w` and
relative user path `a`, `starting_dir` is set to `/w/a`, whose canonical
(symlink-resolved) form on this filesystem is `/x` — so `starting_dir` is
not the canonicalized form of the target path (the canonicalization in
`main` is commented out). -/
theorem starting_dir_not_canonical_cex :
    (mkDeleteOptions baseFlags inputW9 [osName "w"]).starting_dir =
      [osName "w", osName "a"] ∧
    fsC9.canonicalize
        (mkDeleteOptions baseFlags inputW9 [osName "w"]).starting_dir =
      some [osName "x"] ∧
    (mkDeleteOptions baseFlags inputW9 [osName "w"]).starting_dir ≠
      [osName "x"] :=
  ⟨by decide, rfl, by decide⟩

/-! ## Claim C10 -/

/-- C10: for every path whose final component cannot be extracted (the
root, or a path terminating in `..`) or whose file name is not valid
UTF-8, the hidden-entry check substitutes the empty name, classifies the
path as not hidden, and falls through to the subsequent checks — even when
`allow_hidden_files` is false; the check is a total function and cannot
fail on such inputs. -/
theorem hidden_check_defaults_empty (path : Path)
    (h : fileName path = none ∨
      ((fileName path).getD osEmpty).toStr = none) :
    isHiddenName path = false ∧
    (∀ (options : DeleteOptions) (next : RunOut),
      hiddenStep options path next = next) := by
  have hf : isHiddenName path = false := by
    unfold isHiddenName
    rcases h with h | h
    · rw [h]; rfl
    · rw [h]; rfl
  refine ⟨hf, ?_⟩
  intro options next
  unfold hiddenStep
  simp [hf]

/-- Witness for C10: the filesystem root has no file name and is not
hidden; the check falls through. -/
theorem hidden_check_defaults_witness :
    fileName ([] : Path) = none ∧
    isHiddenName ([] : Path) = false ∧
    hiddenStep baseOptions [] ⟨.ok .deleted, [], []⟩ =
      ⟨.ok .deleted, [], []⟩ :=
  ⟨rfl, (hidden_check_defaults_empty [] (Or.inl rfl)).1,
    (hidden_check_defaults_empty [] (Or.inl rfl)).2 baseOptions
      ⟨.ok .deleted, [], []⟩⟩

end Saferm
